import Mathlib

/-!
Shallow embedding of the stubcheck repository.

The repository has three source files:
* `find_names.py` — enumerates the attributes of a loaded module and classifies
  each into a tagged record (the observed surface);
* `checker.py` — the reconciliation engine: diffs a stub's declared names
  (`typeshed_client.NameDict`) against the runtime dictionary produced by
  `find_names.py`, yielding `Error` diagnostics;
* `stubcheck.py` — a restricted guard-expression evaluator
  (`LiteralEvalVisitor`) and a declared-name extractor over a statement tree
  (`extract_names_from_node_list`).

Python dictionaries are embedded as association lists `List (String × α)`
together with a no-duplicate-keys hypothesis where a claim needs it; machine
integers are `Int` (Python integers are unbounded, so no wrap-around is
modelled); fallible code returns `Except` / `Option`.
-/

namespace Stubcheck

/-- One classified value captured by `find_names.handle_module` for a module
attribute.  `strList` is the value stored for the `__all__` entry (a list of
names); scalars, classes, callables and the catch-all mirror the
classification switch in `find_names.py`.  Float scalars are not modelled
(floating point), which is irrelevant to the checker logic, which never reads
scalar payloads. -/
inductive RValue where
  | scalarNone
  | scalarInt (n : Int)
  | scalarStr (s : String)
  | classInfo (fqn : String)
  | callableSig (sig : Option String)
  | strList (names : List String)
  | otherType (tag : String)
  deriving DecidableEq

/-- One entry of the JSON dictionary produced by `find_names.handle_module`:
`{'type': typ, 'value': value, 'module': ..., 'name': ...}`. -/
structure RuntimeInfo where
  type : String
  value : RValue
  module : Option String
  name : Option String
  deriving DecidableEq

/-- The runtime dictionary for one module (`RuntimeDict` in `checker.py`),
embedded as an association list. -/
abbrev RuntimeDict := List (String × RuntimeInfo)

/-- The annotation expression of an `AnnAssign` stub node, as far as
`checker.py` inspects it: either a plain `Name` node with its identifier, or
anything else. -/
inductive AnnExpr where
  | nameExpr (id : String)
  | otherExpr (desc : String)
  deriving DecidableEq

/-- The shape of the `ast` field of a `typeshed_client.NameInfo`, as far as
`checker.py` inspects it: an `Assign` (with its optional `type_comment`), an
`AnnAssign` (with its annotation), a class or function definition, or any
other node kind. -/
inductive StubAst where
  | assign (typeComment : Option String)
  | annAssign (annot : AnnExpr)
  | classDef
  | functionDef
  | otherAst (desc : String)
  deriving DecidableEq

/-- A `typeshed_client.NameInfo`: one name declared by a stub. -/
structure NameInfo where
  name : String
  is_exported : Bool
  ast : StubAst
  deriving DecidableEq

/-- A `typeshed_client.NameDict`, embedded as an association list. -/
abbrev NameDict := List (String × NameInfo)

/-- Embeds `checker.Error`. -/
structure Error where
  module_name : String
  message : String
  deriving DecidableEq

/-- Python dict lookup (`d[k]` / `d.get(k)`) on an association list.  With
no-duplicate keys this is exactly dict access. -/
def lookupName {α} : List (String × α) → String → Option α
  | [], _ => Option.none
  | p :: rest, k => if p.1 = k then some p.2 else lookupName rest k

/-- Python dict key membership (`k in d`) on an association list. -/
def containsName {α} (l : List (String × α)) (k : String) : Bool :=
  decide (k ∈ l.map Prod.fst)

/-- Ordering used by Python's `sorted(d.items())`: tuples are compared
lexicographically, and since dict keys are unique the first component alone
decides. -/
def keyLE {α} (a b : String × α) : Prop := a.1 ≤ b.1

instance {α} : DecidableRel (keyLE (α := α)) :=
  fun a b => inferInstanceAs (Decidable (a.1 ≤ b.1))

instance {α} : IsTotal (String × α) keyLE :=
  ⟨fun a b => le_total a.1 b.1⟩

instance {α} : IsTrans (String × α) keyLE :=
  ⟨fun _ _ _ h1 h2 => le_trans h1 h2⟩

/-- Embeds `sorted(d.items())`. -/
def sortItems {α} (l : List (String × α)) : List (String × α) :=
  l.insertionSort keyLE

/-- Embeds `sorted(xs)` for a list of strings. -/
def sortStrings (l : List String) : List String :=
  l.insertionSort (· ≤ ·)

/-- The message of `checker.check_only_in_stub`:
`f-string {name!r} is in stub but is not defined at runtime` (the `!r`
conversion of an identifier renders it between single quotes). -/
def mkStubMsg (name : String) : String :=
  "\x27" ++ name ++ "\x27 is in stub but is not defined at runtime"

/-- The message of `checker.check_only_in_runtime`:
`f-string {name!r} is in __all__ but not in stub`. -/
def mkAllMsg (name : String) : String :=
  "\x27" ++ name ++ "\x27 is in __all__ but not in stub"

/-- Embeds `isinstance(info.ast, ast3.Assign) and info.ast.type_comment == 'int'`. -/
def isIntAssign : StubAst → Bool
  | .assign tc => decide (tc = some "int")
  | _ => false

/-- Embeds `isinstance(info.ast, ast3.AnnAssign) and isinstance(info.ast.annotation,
ast3.Name) and info.ast.annotation.id == 'int'` (the annotation is read off
the embedded `AnnExpr`). -/
def isIntAnnAssign : StubAst → Bool
  | .annAssign (.nameExpr id) => decide (id = "int")
  | _ => false

/-- Embeds `checker.check_only_in_stub` (Rule A).  The generator is embedded as a
`filterMap` over the sorted items; each `continue` becomes a `none` branch. -/
def check_only_in_stub (runtime : RuntimeDict) (stub : NameDict)
    (module_name : String) : List Error :=
  (sortItems stub).filterMap fun p =>
    if containsName runtime p.1 then Option.none
    else if !p.2.is_exported then Option.none
    else if isIntAssign p.2.ast then Option.none
    else if isIntAnnAssign p.2.ast then Option.none
    else some (Error.mk module_name (mkStubMsg p.1))

/-- Reads `runtime['__all__']['value']` as the list of names it stores.
`find_names.py` always stores a list of strings as the value of the
`__all__` entry, which is the case the checker relies on. -/
def asStrList : RValue → List String
  | .strList names => names
  | _ => []

/-- Embeds `checker.check_only_in_runtime` (Rule B). -/
def check_only_in_runtime (runtime : RuntimeDict) (stub : NameDict)
    (module_name : String) : List Error :=
  match lookupName runtime "__all__" with
  | some info =>
      (sortStrings (asStrList info.value)).filterMap fun name =>
        if containsName stub name then Option.none
        else some (Error.mk module_name (mkAllMsg name))
  | Option.none => []

/-- Embeds `checker.check_module`.  The `get_defined_names` subprocess call is a
boundary: its result is passed in as `Option RuntimeDict`, where
`Option.none` stands for `subprocess.CalledProcessError` (the worker failed).
The function returns the yielded diagnostics together with the list of
notices printed (the source prints `failed to import ...` and returns without
yielding in the failure case). -/
def check_module (runtime_result : Option RuntimeDict) (stub : NameDict)
    (module_name : String) : List Error × List String :=
  match runtime_result with
  | Option.none => ([], ["failed to import " ++ module_name])
  | some runtime =>
      (check_only_in_stub runtime stub module_name ++
        check_only_in_runtime runtime stub module_name, [])

/-!
Embedding of `stubcheck.py`: the guard evaluator (`LiteralEvalVisitor`) and
the declared-name extractor (`extract_names_from_node_list`).
-/

/-- The errors the visitor and the extractor can produce:
`literalEvalError` is `stubcheck.LiteralEvalError` (caught by the extractor);
`uncaught` stands for any other Python exception that would propagate out of
the visitor uncaught (`TypeError`, `IndexError`, `ValueError`, ...). -/
inductive EvalErr where
  | literalEvalError (msg : String)
  | uncaught (msg : String)
  deriving DecidableEq

/-- A Python value as manipulated by `LiteralEvalVisitor`: `None`, booleans,
integers, strings, tuples, slice objects, and structured objects with named
attributes (`obj` models the `sys` module and values such as
`sys.version_info`; attribute access is only modelled for `obj`). -/
inductive PyVal where
  | noneV
  | bool (b : Bool)
  | int (n : Int)
  | str (s : String)
  | tuple (elems : List PyVal)
  | sliceV (lower upper step : Option PyVal)
  | obj (attrs : List (String × PyVal))

/-- Python truthiness (`bool(v)`) for the modelled values. -/
def truthy : PyVal → Bool
  | .noneV => false
  | .bool b => b
  | .int n => decide (n ≠ 0)
  | .str s => decide (s ≠ "")
  | .tuple l => !l.isEmpty
  | .sliceV _ _ _ => true
  | .obj _ => true

/-- Numeric view of a value: Python treats `bool` as an integer in
arithmetic, comparisons and indexing. -/
def asNum : PyVal → Option Int
  | .int n => some n
  | .bool b => some (if b then 1 else 0)
  | _ => Option.none

mutual

/-- Python `==` on the modelled values: numeric cross-equality between
`bool` and `int`, structural equality on strings, tuples and slices; two
`obj` values compare by their attribute lists (for the module / structured
objects a guard can reach, this stands in for CPython object equality). -/
def pyEq : PyVal → PyVal → Bool
  | .noneV, .noneV => true
  | .int a, .int b => decide (a = b)
  | .int a, .bool b => decide (a = (if b then 1 else 0))
  | .bool a, .int b => decide ((if a then (1 : Int) else 0) = b)
  | .bool a, .bool b => a == b
  | .str a, .str b => a == b
  | .tuple a, .tuple b => pyEqList a b
  | .sliceV a b c, .sliceV d e f => pyEqOpt a d && pyEqOpt b e && pyEqOpt c f
  | .obj a, .obj b => pyEqAttrs a b
  | _, _ => false
termination_by a _ => sizeOf a

def pyEqList : List PyVal → List PyVal → Bool
  | [], [] => true
  | x :: xs, y :: ys => pyEq x y && pyEqList xs ys
  | _, _ => false
termination_by a _ => sizeOf a

def pyEqOpt : Option PyVal → Option PyVal → Bool
  | Option.none, Option.none => true
  | some x, some y => pyEq x y
  | _, _ => false
termination_by a _ => sizeOf a

def pyEqAttrs : List (String × PyVal) → List (String × PyVal) → Bool
  | [], [] => true
  | (a, v) :: ps, (b, w) :: qs => a == b && pyEq v w && pyEqAttrs ps qs
  | _, _ => false
termination_by a _ => sizeOf a

end

mutual

/-- Python `<` on the modelled values: defined between numbers (with `bool`
as an integer), between strings, and between tuples (lexicographically);
anything else raises `TypeError`, which the visitor does not catch. -/
def pyLt : PyVal → PyVal → Except EvalErr Bool
  | x, y =>
    match asNum x, asNum y with
    | some a, some b => .ok (decide (a < b))
    | _, _ =>
      match x, y with
      | .str a, .str b => .ok (decide (a < b))
      | .tuple a, .tuple b => pyLtList a b
      | _, _ => .error (.uncaught "TypeError: comparison not supported between these types")
termination_by a _ => sizeOf a

def pyLtList : List PyVal → List PyVal → Except EvalErr Bool
  | [], [] => .ok false
  | [], _ :: _ => .ok true
  | _ :: _, [] => .ok false
  | x :: xs, y :: ys => if pyEq x y then pyLtList xs ys else pyLt x y
termination_by a _ => sizeOf a

end

/-- Python `<=` on the modelled values.  For numbers, strings and tuples
(the only types `pyLt` accepts) CPython's `<=` agrees with
`== or <`, which is how it is expressed here. -/
def pyLe (x y : PyVal) : Except EvalErr Bool :=
  if pyEq x y then .ok true else pyLt x y

/-- Embeds `x is y`.  Object identity is not observable in a value embedding; for
the values a stub guard actually compares with `is` (`None`, booleans,
interned small ints/strings) identity coincides with equality in CPython, so
it is approximated by `pyEq`. -/
def pyIs (x y : PyVal) : Bool := pyEq x y

/-- Substring test on the underlying character lists (`sub in hay`). -/
def strContainsSub (hay sub : String) : Bool :=
  hay.data.tails.any fun t => sub.data.isPrefixOf t

/-- Python `x in y`: tuple membership via `==`, substring test on strings;
anything else raises `TypeError` (uncaught). -/
def pyIn (x y : PyVal) : Except EvalErr Bool :=
  match y with
  | .tuple l => .ok (l.any fun e => pyEq x e)
  | .str s =>
    match x with
    | .str sub => .ok (strContainsSub s sub)
    | _ => .error (.uncaught "TypeError: in <string> requires string as left operand")
  | _ => .error (.uncaught "TypeError: argument of type is not iterable")

/-- The comparison operators of `ast.Compare` that `_CMP_OP_TO_FUNCTION`
supports (all of Python's). -/
inductive CmpOp where
  | eq | notEq | lt | ltE | gt | gtE | isOp | isNot | inOp | notIn
  deriving DecidableEq

/-- Embeds `_CMP_OP_TO_FUNCTION`: each operator as a binary function on values
(`a > b` is `b < a` and `a >= b` is `b <= a` for the supported types). -/
def cmpOpFunction : CmpOp → PyVal → PyVal → Except EvalErr PyVal
  | .eq, x, y => .ok (.bool (pyEq x y))
  | .notEq, x, y => .ok (.bool (!pyEq x y))
  | .lt, x, y => do let b ← pyLt x y; .ok (.bool b)
  | .ltE, x, y => do let b ← pyLe x y; .ok (.bool b)
  | .gt, x, y => do let b ← pyLt y x; .ok (.bool b)
  | .gtE, x, y => do let b ← pyLe y x; .ok (.bool b)
  | .isOp, x, y => .ok (.bool (pyIs x y))
  | .isNot, x, y => .ok (.bool (!pyIs x y))
  | .inOp, x, y => do let b ← pyIn x y; .ok (.bool b)
  | .notIn, x, y => do let b ← pyIn x y; .ok (.bool (!b))

/-- A slice component: absent or `None` count as absent; otherwise it must
be an integer (with `bool` as an integer), else `TypeError` (uncaught). -/
def sliceComp : Option PyVal → Except EvalErr (Option Int)
  | Option.none => .ok Option.none
  | some .noneV => .ok Option.none
  | some v =>
    match asNum v with
    | some i => .ok (some i)
    | Option.none => .error (.uncaught "TypeError: slice indices must be integers or None")

/-- CPython index adjustment for a positive-step slice: clamp a possibly
negative index into `[0, n]`. -/
def adjustIndexPos (n : Nat) (deflt : Nat) : Option Int → Nat
  | Option.none => deflt
  | some i => if i < 0 then (i + n).toNat else min i.toNat n

/-- CPython index adjustment for a negative-step slice: clamp into
`[-1, n-1]`, returned shifted by `+1` into `[0, n]` so the result is a
natural number. -/
def adjustIndexNeg (n : Nat) (deflt : Nat) : Option Int → Nat
  | Option.none => deflt
  | some i => if i < 0 then (i + n + 1).toNat else min (i + 1).toNat n

/-- CPython sequence slicing `l[lo:hi:st]` (`PySlice_AdjustIndices` followed
by element collection). -/
def applySlice {α} (l : List α) (lo hi st : Option Int) : Except EvalErr (List α) :=
  let n := l.length
  let step := st.getD 1
  if step = 0 then .error (.uncaught "ValueError: slice step cannot be zero")
  else if step > 0 then
    let s := step.toNat
    let start := adjustIndexPos n 0 lo
    let stop := adjustIndexPos n n hi
    let count := (stop - start + s - 1) / s
    .ok ((List.range count).filterMap fun j => l[start + j * s]?)
  else
    let s := (-step).toNat
    let start1 := adjustIndexNeg n n lo
    let stop1 := adjustIndexNeg n 0 hi
    let count := (start1 - stop1 + s - 1) / s
    .ok ((List.range count).filterMap fun j => l[start1 - 1 - j * s]?)

/-- Python sequence indexing with negative-index support; out-of-range is an
`IndexError` (uncaught). -/
def pyIndex {α} (l : List α) (i : Int) : Except EvalErr α :=
  let j := if i < 0 then i + l.length else i
  if j < 0 then .error (.uncaught "IndexError: index out of range")
  else
    match l[j.toNat]? with
    | some x => .ok x
    | Option.none => .error (.uncaught "IndexError: index out of range")

/-- Embeds the `value[slc]` computation of `visit_Subscript`: tuples and
strings support integer indices (with `bool` as an integer) and slice
objects; anything else raises `TypeError` (uncaught). -/
def pySubscript : PyVal → PyVal → Except EvalErr PyVal
  | .tuple l, .sliceV lo hi st => do
    let lo2 ← sliceComp lo
    let hi2 ← sliceComp hi
    let st2 ← sliceComp st
    let r ← applySlice l lo2 hi2 st2
    .ok (.tuple r)
  | .tuple l, idx =>
    match asNum idx with
    | some i => pyIndex l i
    | Option.none => .error (.uncaught "TypeError: tuple indices must be integers or slices")
  | .str s, .sliceV lo hi st => do
    let lo2 ← sliceComp lo
    let hi2 ← sliceComp hi
    let st2 ← sliceComp st
    let r ← applySlice s.data lo2 hi2 st2
    .ok (.str (String.mk r))
  | .str s, idx =>
    match asNum idx with
    | some i => do
      let c ← pyIndex s.data i
      .ok (.str (String.mk [c]))
    | Option.none => .error (.uncaught "TypeError: string indices must be integers or slices")
  | _, _ => .error (.uncaught "TypeError: object is not subscriptable")

/-- Embeds the `getattr(val, attr)` computation of `visit_Attribute`, with `AttributeError` converted
to `LiteralEvalError`.  Attributes are modelled for `obj` values (the
context module and its structured attributes); the built-in method
attributes of scalars are not modelled. -/
def pyGetattr : PyVal → String → Except EvalErr PyVal
  | .obj attrs, attr =>
    match lookupName attrs attr with
    | some v => .ok v
    | Option.none => .error (.literalEvalError ("Cannot access attribute " ++ attr ++ " on object"))
  | _, attr => .error (.literalEvalError ("Cannot access attribute " ++ attr ++ " on object"))

/-- Embeds `ast.And` / `ast.Or`. -/
inductive BoolOpKind where
  | andOp | orOp
  deriving DecidableEq

/-- The short-circuit test of `visit_BoolOp`:
`(isinstance(node.op, ast.Or) and val) or (isinstance(node.op, ast.And) and not val)`. -/
def boolOpShortCircuits (op : BoolOpKind) (v : PyVal) : Bool :=
  match op with
  | .orOp => truthy v
  | .andOp => !truthy v

/-- The expression grammar reachable by `LiteralEvalVisitor`: the node kinds
with a `visit_*` method, plus `other`, which stands for every remaining AST
node kind and is dispatched to `generic_visit` (its `desc` field carries the
`ast.dump` text of the node).  On the Python versions this code runs under,
literal `True`/`False`/`None` dispatch to `visit_NameConstant`, which is not
defined, so they are `other` nodes as well. -/
inductive Expr where
  | name (id : String)
  | num (n : Int)
  | strLit (s : String)
  | tuple (elts : List Expr)
  | subscript (value : Expr) (slice : Expr)
  | compare (left : Expr) (ops : List CmpOp) (comparators : List Expr)
  | boolOp (op : BoolOpKind) (values : List Expr)
  | sliceE (lower upper step : Option Expr)
  | attr (value : Expr) (attrName : String)
  | other (desc : String)

mutual

/-- Embeds `LiteralEvalVisitor().visit(e)`, with the single distinguished context
identifier `sys` bound to `sysVal` (in the source it is the imported `sys`
module — a fixed structured value). -/
def visit (sysVal : PyVal) : Expr → Except EvalErr PyVal
  | .name id =>
    if id = "sys" then .ok sysVal
    else .error (.literalEvalError ("Cannot evaluate name " ++ id))
  | .num n => .ok (.int n)
  | .strLit s => .ok (.str s)
  | .tuple elts => do
    let vs ← visitList sysVal elts
    .ok (.tuple vs)
  | .subscript v s => do
    let value ← visit sysVal v
    let slc ← visit sysVal s
    pySubscript value slc
  | .compare left ops comps =>
    match ops with
    | [op] => do
      let x ← visit sysVal left
      match comps with
      | c :: _ => do
        let y ← visit sysVal c
        cmpOpFunction op x y
      | [] => .error (.uncaught "IndexError: list index out of range")
    | _ => .error (.literalEvalError "Cannot evaluate chained comparison")
  | .boolOp op vals => visitBoolOp sysVal op vals
  | .sliceE lo hi st => do
    let l ← visitOpt sysVal lo
    let u ← visitOpt sysVal hi
    let s ← visitOpt sysVal st
    .ok (.sliceV l u s)
  | .attr v a => do
    let value ← visit sysVal v
    pyGetattr value a
  | .other desc => .error (.literalEvalError ("Cannot evaluate node " ++ desc))
termination_by e => sizeOf e

/-- The `tuple(self.visit(elt) for elt in node.elts)` generator of
`visit_Tuple` (the first failure propagates). -/
def visitList (sysVal : PyVal) : List Expr → Except EvalErr (List PyVal)
  | [] => .ok []
  | e :: rest => do
    let v ← visit sysVal e
    let vs ← visitList sysVal rest
    .ok (v :: vs)
termination_by l => sizeOf l

/-- The `self.visit(node.x) if node.x is not None else None` pattern of
`visit_Slice`. -/
def visitOpt (sysVal : PyVal) : Option Expr → Except EvalErr (Option PyVal)
  | Option.none => .ok Option.none
  | some e => do
    let v ← visit sysVal e
    .ok (some v)
termination_by o => sizeOf o

/-- The loop of `visit_BoolOp`: evaluate operands left to right, return the
first short-circuiting value, else the last value.  An empty operand list
(impossible for parsed source) would hit the unbound local `val` in the
source, an uncaught `UnboundLocalError`. -/
def visitBoolOp (sysVal : PyVal) (op : BoolOpKind) : List Expr → Except EvalErr PyVal
  | [] => .error (.uncaught "UnboundLocalError: local variable val referenced before assignment")
  | [e] => visit sysVal e
  | e :: rest => do
    let v ← visit sysVal e
    if boolOpShortCircuits op v then .ok v else visitBoolOp sysVal op rest
termination_by l => sizeOf l

end

/-- An assignment target as inspected by the extractor: a plain `ast.Name`
or any other target form (tuple/starred/attribute/subscript targets, which
the `isinstance(target, ast.Name)` test skips). -/
inductive AssignTarget where
  | name (id : String)
  | otherTarget (desc : String)
  deriving DecidableEq

/-- The statement forms distinguished by `extract_names_from_node_list`:
class definitions (whose body the extractor does not descend into),
assignments (with their targets and optional type comment, which the
extractor ignores), function definitions, conditionals, annotated
assignments (`ast.AnnAssign` — matched by none of the `isinstance` tests in
the source, so traversal skips them), and every other statement kind. -/
inductive Stmt where
  | classDef (name : String)
  | assign (targets : List AssignTarget) (typeComment : Option String)
  | functionDef (name : String)
  | ifStmt (test : Expr) (body orelse : List Stmt)
  | annAssign (target : AssignTarget) (annot : String)
  | otherStmt (desc : String)

/-- The target loop of the `ast.Assign` case: yield `target.id` for each
plain-name target. -/
def assignNames (targets : List AssignTarget) : List String :=
  targets.filterMap fun t =>
    match t with
    | .name id => some id
    | .otherTarget _ => Option.none

/-- Embeds `stubcheck.extract_names_from_node_list`, with the ambient `sys` module
passed as the evaluation context.  The first component of the result is the
sequence of yielded names, the second the sequence of `bad condition ...`
notices printed for guards that fail with `LiteralEvalError`; any other
exception escaping the visitor propagates (the `Except.error` case). -/
def extract_names_from_node_list (sysVal : PyVal) :
    List Stmt → Except EvalErr (List String × List String)
  | [] => .ok ([], [])
  | node :: rest =>
    match node with
    | .classDef name => do
      let r ← extract_names_from_node_list sysVal rest
      .ok (name :: r.1, r.2)
    | .assign targets _ => do
      let r ← extract_names_from_node_list sysVal rest
      .ok (assignNames targets ++ r.1, r.2)
    | .functionDef name => do
      let r ← extract_names_from_node_list sysVal rest
      .ok (name :: r.1, r.2)
    | .ifStmt test body orelse =>
      match visit sysVal test with
      | .error (.literalEvalError m) => do
        let r ← extract_names_from_node_list sysVal rest
        .ok (r.1, ("bad condition: " ++ m) :: r.2)
      | .error e => .error e
      | .ok condition =>
        if truthy condition then do
          let b ← extract_names_from_node_list sysVal body
          let r ← extract_names_from_node_list sysVal rest
          .ok (b.1 ++ r.1, b.2 ++ r.2)
        else do
          let b ← extract_names_from_node_list sysVal orelse
          let r ← extract_names_from_node_list sysVal rest
          .ok (b.1 ++ r.1, b.2 ++ r.2)
    | .annAssign _ _ => extract_names_from_node_list sysVal rest
    | .otherStmt _ => extract_names_from_node_list sysVal rest
termination_by l => sizeOf l

/-! ## Lemmas and claim theorems -/

@[simp]
theorem ok_bind {ε α β} (a : α) (f : α → Except ε β) :
    (Except.ok a >>= f : Except ε β) = f a := rfl

@[simp]
theorem error_bind {ε α β} (e : ε) (f : α → Except ε β) :
    (Except.error e >>= f : Except ε β) = Except.error e := rfl

/-- Claim C8: if observed-surface capture fails because the unit cannot be
loaded (the `find_names.py` worker fails, modelled by the `Option.none`
argument), `check_module` yields zero diagnostics, surfaces the
`failed to import ...` notice, and returns normally instead of raising past
the unit boundary. -/
theorem claim_C8 (stub : NameDict) (m : String) :
    check_module Option.none stub m = ([], ["failed to import " ++ m]) := rfl

/-- Claim C5: the guard evaluator fails with a `LiteralEvalError` (and never
returns a value) for every expression outside its grammar: a free identifier
other than the distinguished context identifier `sys`, a chained comparison
(more than one comparison operator), and any AST node kind without a
`visit_` method (the `other` constructor, dispatched to `generic_visit`). -/
theorem claim_C5 (sysVal : PyVal) :
    (∀ id, id ≠ "sys" →
      visit sysVal (Expr.name id) =
        Except.error (EvalErr.literalEvalError ("Cannot evaluate name " ++ id))) ∧
    (∀ left ops comps, 2 ≤ ops.length →
      visit sysVal (Expr.compare left ops comps) =
        Except.error (EvalErr.literalEvalError "Cannot evaluate chained comparison")) ∧
    (∀ desc,
      visit sysVal (Expr.other desc) =
        Except.error (EvalErr.literalEvalError ("Cannot evaluate node " ++ desc))) := by
  refine ⟨fun id hid => by simp [visit, hid], fun left ops comps hlen => ?_, fun desc => by simp [visit]⟩
  rcases ops with _ | ⟨o1, _ | ⟨o2, rest⟩⟩
  · simp at hlen
  · simp at hlen
  · simp [visit]

/-- Witness for C5 at concrete inputs: the unbound identifier `flags`, the
chained comparison `0 < 1 < 2`, and an unsupported `Call` node. -/
theorem claim_C5_witness :
    (("flags" : String) ≠ "sys" ∧
      visit PyVal.noneV (Expr.name "flags") =
        Except.error (EvalErr.literalEvalError ("Cannot evaluate name " ++ "flags"))) ∧
    (2 ≤ [CmpOp.lt, CmpOp.lt].length ∧
      visit PyVal.noneV (Expr.compare (Expr.num 0) [CmpOp.lt, CmpOp.lt] [Expr.num 1, Expr.num 2]) =
        Except.error (EvalErr.literalEvalError "Cannot evaluate chained comparison")) ∧
    visit PyVal.noneV (Expr.other "Call") =
      Except.error (EvalErr.literalEvalError ("Cannot evaluate node " ++ "Call")) :=
  ⟨⟨by decide, (claim_C5 PyVal.noneV).1 "flags" (by decide)⟩,
   ⟨by decide, (claim_C5 PyVal.noneV).2.1 (Expr.num 0) [CmpOp.lt, CmpOp.lt]
      [Expr.num 1, Expr.num 2] (by decide)⟩,
   (claim_C5 PyVal.noneV).2.2 "Call"⟩

theorem visitBoolOp_spec (sysVal : PyVal) (op : BoolOpKind) (pre : List Expr)
    (e : Expr) (post : List Expr) (v : PyVal)
    (hpre : ∀ x ∈ pre, ∃ w, visit sysVal x = Except.ok w ∧ boolOpShortCircuits op w = false)
    (he : visit sysVal e = Except.ok v)
    (hlast : boolOpShortCircuits op v = true ∨ post = []) :
    visitBoolOp sysVal op (pre ++ e :: post) = Except.ok v := by
  induction pre with
  | nil =>
    simp only [List.nil_append]
    cases post with
    | nil => simpa [visitBoolOp] using he
    | cons p ps =>
      rcases hlast with hsc | hcontra
      · simp [visitBoolOp, he, hsc]
      · exact absurd hcontra (by simp)
  | cons p pre ih =>
    obtain ⟨w, hw, hscw⟩ := hpre p (by simp)
    have ih2 := ih fun x hx => hpre x (by simp [hx])
    rcases pre with _ | ⟨q, pre2⟩
    · simpa [visitBoolOp, hw, hscw] using ih2
    · simpa [visitBoolOp, hw, hscw] using ih2

/-- Claim C6: boolean `and`/`or` guard evaluation is short-circuiting: if
every operand before `e` evaluates to a non-short-circuiting value (truthy
for `and`, falsy for `or`) and `e` evaluates to `v`, then the whole
expression evaluates to `v` whenever `v` short-circuits (first falsy operand
for `and`, first truthy for `or`) — regardless of the operands after `e`,
which are never evaluated — or whenever `e` is the last operand. -/
theorem claim_C6 (sysVal : PyVal) (op : BoolOpKind) (pre : List Expr)
    (e : Expr) (post : List Expr) (v : PyVal)
    (hpre : ∀ x ∈ pre, ∃ w, visit sysVal x = Except.ok w ∧ boolOpShortCircuits op w = false)
    (he : visit sysVal e = Except.ok v)
    (hlast : boolOpShortCircuits op v = true ∨ post = []) :
    visit sysVal (Expr.boolOp op (pre ++ e :: post)) = Except.ok v := by
  have h := visitBoolOp_spec sysVal op pre e post v hpre he hlast
  simpa [visit] using h

/-- Witness for C6: `0 or 5 or zzz` evaluates to `5` even though the operand
`zzz` after the short-circuit point would fail to evaluate. -/
theorem claim_C6_witness :
    visit PyVal.noneV (Expr.num 0) = Except.ok (PyVal.int 0) ∧
    visit PyVal.noneV (Expr.num 5) = Except.ok (PyVal.int 5) ∧
    visit PyVal.noneV
        (Expr.boolOp BoolOpKind.orOp [Expr.num 0, Expr.num 5, Expr.name "zzz"]) =
      Except.ok (PyVal.int 5) :=
  ⟨by simp [visit], by simp [visit],
    claim_C6 PyVal.noneV BoolOpKind.orOp [Expr.num 0] (Expr.num 5) [Expr.name "zzz"]
      (PyVal.int 5)
      (fun x hx => by
        simp only [List.mem_singleton] at hx
        exact ⟨PyVal.int 0, by simp [hx, visit], by simp [boolOpShortCircuits, truthy]⟩)
      (by simp [visit])
      (Or.inl (by simp [boolOpShortCircuits, truthy]))⟩

/-- Claim C3: for a conditional whose guard evaluates successfully in the
fixed context, the extractor contributes exactly the entries of the taken
branch (the true branch when the value is truthy, the alternate branch when
it is falsy) followed by the entries of the remaining sibling statements;
the non-taken branch contributes nothing. -/
theorem claim_C3 (sysVal : PyVal) (test : Expr) (body orelse rest : List Stmt)
    (v : PyVal) (h : visit sysVal test = Except.ok v) :
    extract_names_from_node_list sysVal (Stmt.ifStmt test body orelse :: rest) =
      (do
        let b ← extract_names_from_node_list sysVal (if truthy v then body else orelse)
        let r ← extract_names_from_node_list sysVal rest
        Except.ok (b.1 ++ r.1, b.2 ++ r.2)) := by
  rw [extract_names_from_node_list]
  rw [h]
  by_cases ht : truthy v <;> simp [ht]

/-- Witness for C3: with context `sys = obj(major := 3)`, the guard
`sys.major == 0` evaluates falsy, so only the alternate branch's declaration
`g` (plus the sibling `h`) is extracted, and the true branch's `f` never
appears. -/
theorem claim_C3_witness :
    visit (PyVal.obj [("major", PyVal.int 3)])
        (Expr.compare (Expr.attr (Expr.name "sys") "major") [CmpOp.eq] [Expr.num 0]) =
      Except.ok (PyVal.bool false) ∧
    extract_names_from_node_list (PyVal.obj [("major", PyVal.int 3)])
        (Stmt.ifStmt
          (Expr.compare (Expr.attr (Expr.name "sys") "major") [CmpOp.eq] [Expr.num 0])
          [Stmt.functionDef "f"] [Stmt.functionDef "g"] :: [Stmt.functionDef "h"]) =
      Except.ok (["g", "h"], []) := by
  have h1 : visit (PyVal.obj [("major", PyVal.int 3)])
      (Expr.compare (Expr.attr (Expr.name "sys") "major") [CmpOp.eq] [Expr.num 0]) =
      Except.ok (PyVal.bool false) := by
    simp [visit, pyGetattr, lookupName, cmpOpFunction, pyEq]
  refine ⟨h1, ?_⟩
  rw [claim_C3 _ _ _ _ _ _ h1]
  simp [truthy, extract_names_from_node_list]

/-- Claim C4: for a conditional whose guard evaluation fails with the
evaluator's `LiteralEvalError`, the extractor contributes no entries from
either branch, surfaces a notice instead of aborting, and still extracts all
sibling declarations: the result is exactly the result for the remaining
statements, with the notice prepended. -/
theorem claim_C4 (sysVal : PyVal) (test : Expr) (body orelse rest : List Stmt)
    (msg : String) (h : visit sysVal test = Except.error (EvalErr.literalEvalError msg)) :
    extract_names_from_node_list sysVal (Stmt.ifStmt test body orelse :: rest) =
      (do
        let r ← extract_names_from_node_list sysVal rest
        Except.ok (r.1, ("bad condition: " ++ msg) :: r.2)) := by
  rw [extract_names_from_node_list]
  rw [h]

/-- Witness for C4: a guard referencing the unbound identifier `flags`
yields no entries from either branch, but the sibling `g` is still
extracted and the run does not fail. -/
theorem claim_C4_witness :
    visit PyVal.noneV (Expr.name "flags") =
      Except.error (EvalErr.literalEvalError "Cannot evaluate name flags") ∧
    extract_names_from_node_list PyVal.noneV
        (Stmt.ifStmt (Expr.name "flags") [Stmt.functionDef "f"] [Stmt.classDef "c"] ::
          [Stmt.functionDef "g"]) =
      Except.ok (["g"], ["bad condition: Cannot evaluate name flags"]) := by
  have h1 : visit PyVal.noneV (Expr.name "flags") =
      Except.error (EvalErr.literalEvalError "Cannot evaluate name flags") := by
    simp [visit]
  refine ⟨h1, ?_⟩
  rw [claim_C4 _ _ _ _ _ _ h1]
  simp [extract_names_from_node_list]

/-- Counterexample to claim C9 as stated: a value binding carrying a type
annotation (`x: int = ...`, an `AnnAssign` node) binds the plain name `x`,
yet the extractor contributes nothing for it — the source's `isinstance`
chain only handles plain `ast.Assign` bindings. -/
theorem claim_C9_counterexample :
    extract_names_from_node_list PyVal.noneV
        [Stmt.annAssign (AssignTarget.name "x") "int"] = Except.ok ([], []) ∧
    "x" ∉ ([] : List String) := by
  constructor
  · rw [extract_names_from_node_list]
    rw [extract_names_from_node_list]
  · simp

/-- Claim C9 as amended: for every plain (unannotated) value binding
statement — including one carrying a type comment, which is still an
`ast.Assign` — the extractor contributes each bound plain name; an annotated
binding (`ast.AnnAssign`) contributes nothing. -/
theorem claim_C9 :
    (∀ (sysVal : PyVal) (targets : List AssignTarget) (tc : Option String)
        (rest : List Stmt) (names notices : List String),
      extract_names_from_node_list sysVal (Stmt.assign targets tc :: rest) =
          Except.ok (names, notices) →
      ∀ id, AssignTarget.name id ∈ targets → id ∈ names) ∧
    (∀ (sysVal : PyVal) (t : AssignTarget) (ann : String) (rest : List Stmt),
      extract_names_from_node_list sysVal (Stmt.annAssign t ann :: rest) =
        extract_names_from_node_list sysVal rest) := by
  constructor
  · intro sysVal targets tc rest names notices h id hid
    rw [extract_names_from_node_list] at h
    cases hrest : extract_names_from_node_list sysVal rest with
    | error e => rw [hrest] at h; simp at h
    | ok r =>
      rw [hrest] at h
      simp only [ok_bind, Except.ok.injEq] at h
      have hnames : names = assignNames targets ++ r.1 := by
        have := congrArg Prod.fst h.symm
        simpa using this
      rw [hnames]
      apply List.mem_append_left
      simp only [assignNames, List.mem_filterMap]
      exact ⟨AssignTarget.name id, hid, rfl⟩
  · intro sysVal t ann rest
    rw [extract_names_from_node_list]

/-- Witness for C9: the binding `x = y = ...  # type: int` (two plain-name
targets and a non-name target) contributes `x` and `y`; the annotated
binding case collapses to the sibling traversal. -/
theorem claim_C9_witness :
    extract_names_from_node_list PyVal.noneV
        [Stmt.assign [AssignTarget.name "x", AssignTarget.otherTarget "q",
          AssignTarget.name "y"] (some "int")] = Except.ok (["x", "y"], []) ∧
    "x" ∈ (["x", "y"] : List String) ∧ "y" ∈ (["x", "y"] : List String) := by
  have h : extract_names_from_node_list PyVal.noneV
      [Stmt.assign [AssignTarget.name "x", AssignTarget.otherTarget "q",
        AssignTarget.name "y"] (some "int")] = Except.ok (["x", "y"], []) := by
    rw [extract_names_from_node_list]
    rw [extract_names_from_node_list]
    simp [assignNames]
  refine ⟨h, ?_, ?_⟩
  · exact claim_C9.1 PyVal.noneV _ (some "int") [] ["x", "y"] [] h "x" (by simp)
  · exact claim_C9.1 PyVal.noneV _ (some "int") [] ["x", "y"] [] h "y" (by simp)

theorem string_sandwich_inj (p s a b : String) (h : p ++ a ++ s = p ++ b ++ s) :
    a = b := by
  have hd := congrArg String.data h
  simp only [String.data_append] at hd
  have h1 := List.append_cancel_right hd
  have h2 := List.append_cancel_left h1
  exact congrArg String.mk h2

theorem mkStubMsg_inj {a b : String} (h : mkStubMsg a = mkStubMsg b) : a = b :=
  string_sandwich_inj _ _ a b h

theorem mkAllMsg_inj {a b : String} (h : mkAllMsg a = mkAllMsg b) : a = b :=
  string_sandwich_inj _ _ a b h

/-- Counting a keyed predicate over an association list with no duplicate
keys: if the predicate can only hold at key `k` and `(k, v)` is the entry
for `k`, the count is decided by that entry alone. -/
theorem countP_keyed {α} (p : String × α → Bool) (l : List (String × α))
    (k : String) (v : α) (hnd : (l.map Prod.fst).Nodup) (hmem : (k, v) ∈ l)
    (hp : ∀ q ∈ l, p q = true → q.1 = k) :
    l.countP p = if p (k, v) then 1 else 0 := by
  induction l with
  | nil => simp at hmem
  | cons q t ih =>
    simp only [List.map_cons, List.nodup_cons] at hnd
    obtain ⟨hq, hndt⟩ := hnd
    rcases List.mem_cons.mp hmem with heq | hmem2
    · subst heq
      have ht0 : t.countP p = 0 := by
        rw [List.countP_eq_zero]
        intro a ha hpa
        have ha1 : a.1 = k := hp a (List.mem_cons_of_mem _ ha) hpa
        have ha2 : a.1 ∈ List.map Prod.fst t := List.mem_map_of_mem Prod.fst ha
        rw [ha1] at ha2
        exact hq ha2
      rw [List.countP_cons, ht0, Nat.zero_add]
    · have hq1 : q.1 ≠ k := by
        intro he
        exact hq (he ▸ List.mem_map_of_mem Prod.fst hmem2)
      have hpq : ¬p q = true := fun hpqt => hq1 (hp q (List.mem_cons_self q t) hpqt)
      rw [List.countP_cons]
      have hz : (if p q then 1 else 0) = 0 := by simp [hpq]
      rw [hz, Nat.add_zero]
      exact ih hndt hmem2 fun a ha => hp a (List.mem_cons_of_mem _ ha)

/-- Claim C1: for every declared entry that is exported and whose name is
absent from the runtime surface, Rule A emits exactly one
declared-not-observed diagnostic naming it — except when the entry is an
integer-typed value binding (an `Assign` with type comment `int` or an
`AnnAssign` annotated with the name `int`), which is suppressed; any other
entry, including string-typed bindings and functions, is not suppressed. -/
theorem claim_C1 (runtime : RuntimeDict) (stub : NameDict) (m name : String)
    (info : NameInfo) (hnd : (stub.map Prod.fst).Nodup)
    (hmem : (name, info) ∈ stub)
    (habs : containsName runtime name = false)
    (hexp : info.is_exported = true) :
    (check_only_in_stub runtime stub m).count (Error.mk m (mkStubMsg name)) =
      if isIntAssign info.ast || isIntAnnAssign info.ast then 0 else 1 := by
  unfold check_only_in_stub
  rw [List.count_filterMap]
  unfold sortItems
  rw [(List.perm_insertionSort keyLE stub).countP_eq]
  rw [countP_keyed _ stub name info hnd hmem ?hp]
  case hp =>
    intro q hq h
    rw [beq_iff_eq] at h
    split_ifs at h
    exact mkStubMsg_inj (congrArg Error.message (Option.some.inj h))
  by_cases hA : isIntAssign info.ast <;> by_cases hB : isIntAnnAssign info.ast <;>
    simp [habs, hexp, hA, hB]

/-- Witness for C1: with an empty runtime surface, the exported integer
binding `BAR` is suppressed (count 0), while the exported function `foo`
and the exported string-typed binding `s` each yield exactly one
diagnostic. -/
theorem claim_C1_witness :
    (check_only_in_stub []
        [("BAR", NameInfo.mk "BAR" true (StubAst.assign (some "int"))),
         ("foo", NameInfo.mk "foo" true StubAst.functionDef),
         ("s", NameInfo.mk "s" true (StubAst.assign (some "str")))] "m").count
      (Error.mk "m" (mkStubMsg "BAR")) = 0 ∧
    (check_only_in_stub []
        [("BAR", NameInfo.mk "BAR" true (StubAst.assign (some "int"))),
         ("foo", NameInfo.mk "foo" true StubAst.functionDef),
         ("s", NameInfo.mk "s" true (StubAst.assign (some "str")))] "m").count
      (Error.mk "m" (mkStubMsg "foo")) = 1 ∧
    (check_only_in_stub []
        [("BAR", NameInfo.mk "BAR" true (StubAst.assign (some "int"))),
         ("foo", NameInfo.mk "foo" true StubAst.functionDef),
         ("s", NameInfo.mk "s" true (StubAst.assign (some "str")))] "m").count
      (Error.mk "m" (mkStubMsg "s")) = 1 := by
  refine ⟨?_, ?_, ?_⟩
  · simpa using claim_C1 [] _ "m" "BAR" (NameInfo.mk "BAR" true (StubAst.assign (some "int")))
      (by decide) (by decide) (by decide) rfl
  · simpa using claim_C1 [] _ "m" "foo" (NameInfo.mk "foo" true StubAst.functionDef)
      (by decide) (by decide) (by decide) rfl
  · simpa using claim_C1 [] _ "m" "s" (NameInfo.mk "s" true (StubAst.assign (some "str")))
      (by decide) (by decide) (by decide) rfl

/-- Claim C2: if the observed surface has an `__all__` (export-list) entry,
Rule B emits one exported-not-declared diagnostic per occurrence of each
listed name absent from the declared surface; if there is no `__all__`
entry, Rule B emits zero diagnostics regardless of either surface. -/
theorem claim_C2 (runtime : RuntimeDict) (stub : NameDict) (m : String)
    (info : RuntimeInfo) (names : List String) (n : String) :
    (lookupName runtime "__all__" = some info → info.value = RValue.strList names →
      (check_only_in_runtime runtime stub m).count (Error.mk m (mkAllMsg n)) =
        if containsName stub n then 0 else names.count n) ∧
    (lookupName runtime "__all__" = Option.none →
      check_only_in_runtime runtime stub m = []) := by
  constructor
  · intro hall hval
    have e1 : check_only_in_runtime runtime stub m =
        (sortStrings names).filterMap fun name =>
          if containsName stub name then Option.none
          else some (Error.mk m (mkAllMsg name)) := by
      simp only [check_only_in_runtime, hall, hval, asStrList]
    rw [e1, List.count_filterMap]
    unfold sortStrings
    rw [(List.perm_insertionSort (· ≤ ·) names).countP_eq]
    by_cases hc : containsName stub n
    · rw [if_pos hc, List.countP_eq_zero]
      intro a _ hpa
      rw [beq_iff_eq] at hpa
      split_ifs at hpa with h1
      have han : a = n := mkAllMsg_inj (congrArg Error.message (Option.some.inj hpa))
      subst han
      exact h1 hc
    · rw [if_neg hc, List.count_eq_countP]
      apply List.countP_congr
      intro a _
      by_cases ha : a = n
      · subst ha
        simp [hc]
      · constructor
        · intro hpa
          rw [beq_iff_eq] at hpa
          split_ifs at hpa with h1
          exact absurd (mkAllMsg_inj (congrArg Error.message (Option.some.inj hpa))) ha
        · intro hqa
          rw [beq_iff_eq] at hqa
          exact absurd hqa ha
  · intro hall
    unfold check_only_in_runtime
    rw [hall]

/-- Witness for C2: with `__all__ = ["extra", "foo"]` and only `foo`
declared, Rule B emits exactly one diagnostic, naming `extra`; with no
`__all__` entry, Rule B emits nothing. -/
theorem claim_C2_witness :
    (check_only_in_runtime
        [("__all__", RuntimeInfo.mk "__all__" (RValue.strList ["extra", "foo"])
          Option.none Option.none)]
        [("foo", NameInfo.mk "foo" true StubAst.functionDef)] "m").count
      (Error.mk "m" (mkAllMsg "extra")) = 1 ∧
    check_only_in_runtime [("other", RuntimeInfo.mk "scalar" (RValue.scalarInt 3)
        Option.none Option.none)]
      [("foo", NameInfo.mk "foo" true StubAst.functionDef)] "m" = [] := by
  constructor
  · have h := (claim_C2
      [("__all__", RuntimeInfo.mk "__all__" (RValue.strList ["extra", "foo"])
        Option.none Option.none)]
      [("foo", NameInfo.mk "foo" true StubAst.functionDef)] "m"
      (RuntimeInfo.mk "__all__" (RValue.strList ["extra", "foo"]) Option.none Option.none)
      ["extra", "foo"] "extra").1 (by decide) rfl
    rw [h]
    decide
  · exact (claim_C2 _ _ "m"
      (RuntimeInfo.mk "__all__" (RValue.strList []) Option.none Option.none) [] "x").2
      (by decide)

/-- Claim C10: Rule B tests only name membership in the declared surface:
a name of the observed export list that is present among the declared names
never produces an exported-not-declared diagnostic, whatever the declared
entry's exportedness, kind or declared type. -/
theorem claim_C10 (runtime : RuntimeDict) (stub : NameDict) (m n : String)
    (hmem : containsName stub n = true) :
    Error.mk m (mkAllMsg n) ∉ check_only_in_runtime runtime stub m := by
  unfold check_only_in_runtime
  cases hall : lookupName runtime "__all__" with
  | none => simp
  | some info =>
    intro hin
    rw [List.mem_filterMap] at hin
    obtain ⟨a, _, heq⟩ := hin
    split_ifs at heq with h1
    have han : a = n := mkAllMsg_inj (congrArg Error.message (Option.some.inj heq))
    subst han
    exact h1 hmem

/-- Witness for C10: `foo` is in `__all__` and present in the stub with
`exported = false` and a non-value-binding kind, and no diagnostic names
it. -/
theorem claim_C10_witness :
    Error.mk "m" (mkAllMsg "foo") ∉ check_only_in_runtime
      [("__all__", RuntimeInfo.mk "__all__" (RValue.strList ["foo"])
        Option.none Option.none)]
      [("foo", NameInfo.mk "foo" false (StubAst.otherAst "import"))] "m" :=
  claim_C10 _ _ "m" "foo" (by decide)

theorem filterMap_if {α β} (q : α → Bool) (g : α → β) (l : List α) :
    (l.filterMap fun a => if q a then some (g a) else Option.none) =
      (l.filter q).map g := by
  induction l with
  | nil => rfl
  | cons a t ih => by_cases h : q a <;> simp [List.filterMap_cons, List.filter_cons, h, ih]

/-- Sorting by key is permutation-invariant when the keys are distinct:
Python's `sorted(d.items())` depends only on the mapping content of `d`. -/
theorem sortItems_eq_of_perm {α} {l1 l2 : List (String × α)} (h : l1.Perm l2)
    (hnd : (l1.map Prod.fst).Nodup) : sortItems l1 = sortItems l2 := by
  have hperm : (sortItems l1).Perm (sortItems l2) :=
    ((List.perm_insertionSort keyLE l1).trans h).trans
      (List.perm_insertionSort keyLE l2).symm
  have hnd1 : ((sortItems l1).map Prod.fst).Nodup :=
    (((List.perm_insertionSort keyLE l1).map Prod.fst).nodup_iff).mpr hnd
  have hnd2 : ((sortItems l2).map Prod.fst).Nodup :=
    (((List.perm_insertionSort keyLE l2).map Prod.fst).nodup_iff).mpr
      ((h.map Prod.fst).nodup hnd)
  have hstrict : ∀ l : List (String × α), List.Sorted keyLE l →
      (l.map Prod.fst).Nodup → List.Sorted (fun a b => a.1 < b.1) l := by
    intro l hsort hn
    have hne : l.Pairwise fun a b => a.1 ≠ b.1 := List.pairwise_map.mp hn
    exact (hsort.and hne).imp fun hab => lt_of_le_of_ne hab.1 hab.2
  haveI : IsAntisymm (String × α) fun a b => a.1 < b.1 :=
    ⟨fun _ _ hab hba => absurd hab (not_lt.mpr (le_of_lt hba))⟩
  exact List.eq_of_perm_of_sorted hperm
    (hstrict _ (List.sorted_insertionSort keyLE l1) hnd1)
    (hstrict _ (List.sorted_insertionSort keyLE l2) hnd2)

/-- Dict lookup is permutation-invariant for distinct keys. -/
theorem lookupName_eq_of_perm {α} {l1 l2 : List (String × α)} (h : l1.Perm l2)
    (hnd : (l1.map Prod.fst).Nodup) (k : String) :
    lookupName l1 k = lookupName l2 k := by
  revert hnd
  induction h with
  | nil => intro _; rfl
  | cons x h2 ih =>
    intro hnd
    rw [List.map_cons, List.nodup_cons] at hnd
    by_cases hx : x.1 = k
    · simp [lookupName, hx]
    · simp only [lookupName, if_neg hx]
      exact ih hnd.2
  | swap x y l =>
    intro hnd
    rw [List.map_cons, List.map_cons, List.nodup_cons] at hnd
    have hyx : y.1 ≠ x.1 := fun he => hnd.1 (he ▸ List.mem_cons_self _ _)
    by_cases h1 : y.1 = k <;> by_cases h2 : x.1 = k
    · exact absurd (h1.trans h2.symm) hyx
    · simp [lookupName, h1, h2]
    · simp [lookupName, h1, h2]
    · simp [lookupName, h1, h2]
  | trans h1 h2 ih1 ih2 =>
    intro hnd
    exact (ih1 hnd).trans (ih2 ((h1.map Prod.fst).nodup hnd))

/-- Dict key membership is permutation-invariant. -/
theorem containsName_eq_of_perm {α} {l1 l2 : List (String × α)} (h : l1.Perm l2)
    (k : String) : containsName l1 k = containsName l2 k := by
  unfold containsName
  exact decide_eq_decide.mpr (h.map Prod.fst).mem_iff

/-- Rule A as a map over a filtered, key-sorted item list. -/
theorem check_only_in_stub_eq_map (runtime : RuntimeDict) (stub : NameDict)
    (m : String) :
    check_only_in_stub runtime stub m =
      ((sortItems stub).filter fun p =>
        !containsName runtime p.1 && p.2.is_exported &&
          !isIntAssign p.2.ast && !isIntAnnAssign p.2.ast).map
        fun p => Error.mk m (mkStubMsg p.1) := by
  unfold check_only_in_stub
  have hfun : (fun p : String × NameInfo =>
      if containsName runtime p.1 then Option.none
      else if !p.2.is_exported then Option.none
      else if isIntAssign p.2.ast then Option.none
      else if isIntAnnAssign p.2.ast then Option.none
      else some (Error.mk m (mkStubMsg p.1))) = fun p =>
        if (!containsName runtime p.1 && p.2.is_exported &&
            !isIntAssign p.2.ast && !isIntAnnAssign p.2.ast) then
          some (Error.mk m (mkStubMsg p.1))
        else Option.none := by
    funext p
    by_cases h1 : containsName runtime p.1 <;> by_cases h2 : p.2.is_exported <;>
      by_cases h3 : isIntAssign p.2.ast <;> by_cases h4 : isIntAnnAssign p.2.ast <;>
      simp [h1, h2, h3, h4]
  rw [hfun, filterMap_if]

/-- Claim C7: reconciliation is deterministic and order-independent: its
diagnostic list depends only on the mapping content of the two surfaces
(permuting either input dictionary leaves the output unchanged), and it is
ordered with all Rule A diagnostics before all Rule B diagnostics,
name-sorted within each rule. -/
theorem claim_C7 (m : String) (r1 r2 : RuntimeDict) (s1 s2 : NameDict)
    (hr : r1.Perm r2) (hs : s1.Perm s2)
    (hrnd : (r1.map Prod.fst).Nodup) (hsnd : (s1.map Prod.fst).Nodup) :
    check_module (some r1) s1 m = check_module (some r2) s2 m ∧
    ∃ ns1 ns2 : List String,
      List.Sorted (· ≤ ·) ns1 ∧ List.Sorted (· ≤ ·) ns2 ∧
      (check_module (some r1) s1 m).1 =
        (ns1.map fun n => Error.mk m (mkStubMsg n)) ++
          (ns2.map fun n => Error.mk m (mkAllMsg n)) := by
  have hA : check_only_in_stub r1 s1 m = check_only_in_stub r2 s2 m := by
    unfold check_only_in_stub
    rw [sortItems_eq_of_perm hs hsnd]
    congr 1
    funext p
    rw [containsName_eq_of_perm hr]
  have hB : check_only_in_runtime r1 s1 m = check_only_in_runtime r2 s2 m := by
    unfold check_only_in_runtime
    rw [lookupName_eq_of_perm hr hrnd "__all__"]
    cases lookupName r2 "__all__" with
    | none => rfl
    | some info => simp only [containsName_eq_of_perm hs]
  refine ⟨by simp only [check_module, hA, hB], ?_⟩
  have hsortedA : List.Sorted (· ≤ ·)
      (((sortItems s1).filter fun p =>
        !containsName r1 p.1 && p.2.is_exported &&
          !isIntAssign p.2.ast && !isIntAnnAssign p.2.ast).map Prod.fst) := by
    have h0 : List.Sorted keyLE (sortItems s1) := List.sorted_insertionSort keyLE s1
    exact (h0.filter _).map Prod.fst fun a b hab => hab
  have hmapA : check_only_in_stub r1 s1 m =
      ((((sortItems s1).filter fun p =>
        !containsName r1 p.1 && p.2.is_exported &&
          !isIntAssign p.2.ast && !isIntAnnAssign p.2.ast).map Prod.fst).map
        fun n => Error.mk m (mkStubMsg n)) := by
    rw [check_only_in_stub_eq_map, List.map_map]
    rfl
  cases hall : lookupName r1 "__all__" with
  | none =>
    refine ⟨_, [], hsortedA, by simp, ?_⟩
    have hBnil : check_only_in_runtime r1 s1 m = [] := by
      unfold check_only_in_runtime
      rw [hall]
    simp only [check_module, hBnil, List.append_nil, List.map_nil]
    rw [← hmapA]
  | some info =>
    have hBmap : check_only_in_runtime r1 s1 m =
        (((sortStrings (asStrList info.value)).filter
          fun n => !containsName s1 n).map fun n => Error.mk m (mkAllMsg n)) := by
      have e1 : check_only_in_runtime r1 s1 m =
          (sortStrings (asStrList info.value)).filterMap fun name =>
            if containsName s1 name then Option.none
            else some (Error.mk m (mkAllMsg name)) := by
        simp only [check_only_in_runtime, hall]
      have hfun : (fun name => if containsName s1 name then Option.none
          else some (Error.mk m (mkAllMsg name))) = fun name =>
            if !containsName s1 name then some (Error.mk m (mkAllMsg name))
            else Option.none := by
        funext name
        by_cases h : containsName s1 name <;> simp [h]
      rw [e1, hfun, filterMap_if]
    have hsortedB : List.Sorted (· ≤ ·)
        ((sortStrings (asStrList info.value)).filter fun n => !containsName s1 n) := by
      have h0 : List.Sorted (· ≤ ·) (sortStrings (asStrList info.value)) :=
        List.sorted_insertionSort (· ≤ ·) (asStrList info.value)
      exact h0.filter _
    refine ⟨_, _, hsortedA, hsortedB, ?_⟩
    simp only [check_module]
    rw [← hmapA, ← hBmap]

/-- Witness for C7: two permuted presentations of the same runtime and stub
dictionaries produce identical, rule-ordered, name-sorted output. -/
theorem claim_C7_witness :
    check_module
        (some [("a", RuntimeInfo.mk "scalar" (RValue.scalarInt 1) Option.none Option.none),
          ("__all__", RuntimeInfo.mk "__all__" (RValue.strList ["b"]) Option.none Option.none)])
        [("x", NameInfo.mk "x" true StubAst.functionDef),
          ("b", NameInfo.mk "b" true StubAst.classDef)] "m" =
      check_module
        (some [("__all__", RuntimeInfo.mk "__all__" (RValue.strList ["b"]) Option.none Option.none),
          ("a", RuntimeInfo.mk "scalar" (RValue.scalarInt 1) Option.none Option.none)])
        [("b", NameInfo.mk "b" true StubAst.classDef),
          ("x", NameInfo.mk "x" true StubAst.functionDef)] "m" ∧
    ∃ ns1 ns2 : List String,
      List.Sorted (· ≤ ·) ns1 ∧ List.Sorted (· ≤ ·) ns2 ∧
      (check_module
        (some [("a", RuntimeInfo.mk "scalar" (RValue.scalarInt 1) Option.none Option.none),
          ("__all__", RuntimeInfo.mk "__all__" (RValue.strList ["b"]) Option.none Option.none)])
        [("x", NameInfo.mk "x" true StubAst.functionDef),
          ("b", NameInfo.mk "b" true StubAst.classDef)] "m").1 =
        (ns1.map fun n => Error.mk "m" (mkStubMsg n)) ++
          (ns2.map fun n => Error.mk "m" (mkAllMsg n)) :=
  claim_C7 "m" _ _ _ _ (by decide) (by decide) (by decide) (by decide)

end Stubcheck
